import Mathlib

/-!
Verification of the MAST search module of lightkurve (src/lightkurve/search.py).

The development shallowly embeds the pure decision logic of the module:

* the text utilities used by the filters (Python `str.lower`, `in`, `endswith`,
  `replace`, `split`, `zfill`) as functions on `String` / `List Char`;
* the target-name pattern matching of `_query_mast` (`exactTargetName`);
* the bare-integer ambiguity warnings of `_search_products` (`bareIntWarning`);
* the per-family product masks `_mask_kepler_products`, `_mask_k2_products`,
  `_mask_spoc_products`, the mask combination of `_filter_products`
  (`familyMask`), and the final extension filter / sort / limit stage
  (`_filter_products`);
* the empty-table behaviour of `SearchResult.download` / `download_all`.

Tables are lists of `ProductRow`; numpy boolean masks are `List Bool`;
Python exceptions are `Except String`; the remote services and the
month-lookup CSV are parameters.  Distances (floats in the source) are
modelled as rationals: every property proved here is purely order-theoretic
in the distance column.  Strings are treated as ASCII, which covers every
literal the source matches against.
-/

namespace Lightkurve

/-! ## Text utilities (models of the Python string operations used) -/

/-- ASCII lowering of one character, the model of Python `str.lower` on the
ASCII text this module matches against. -/
def asciiLower (c : Char) : Char :=
  if 65 ≤ c.toNat ∧ c.toNat ≤ 90 then Char.ofNat (c.toNat + 32) else c

/-- Model of Python `s.lower()`. -/
def strLower (s : String) : String := String.mk (s.toList.map asciiLower)

/-- Does `needle` occur as a contiguous run inside `hay`? -/
def listContains (hay needle : List Char) : Bool :=
  match hay with
  | [] => needle.isEmpty
  | _ :: rest => needle.isPrefixOf hay || listContains rest needle

/-- Model of Python `needle in hay` on strings. -/
def strContains (hay needle : String) : Bool := listContains hay.toList needle.toList

/-- Model of Python `s.endswith(suffix)`. -/
def strEndsWith (s sfx : String) : Bool := sfx.toList.isSuffixOf s.toList

/-- Model of Python `s.replace("-", "")`. -/
def stripHyphens (s : String) : String := String.mk (s.toList.filter (fun c => c != '-'))

/-- Is `c` an ASCII decimal digit (the model of `\d` in the source's regexes)? -/
def isDig (c : Char) : Bool := 48 ≤ c.toNat && c.toNat ≤ 57

/-- Model of Python `str.zfill(9)` on an (unsigned) digit string: left-pad
with zeros up to width 9; longer strings are returned unchanged. -/
def zfill9 (d : List Char) : List Char := List.replicate (9 - d.length) '0' ++ d

/-- Decimal value of a digit string (helper for the model of Python `int`). -/
def digitsToNat : List Char → Nat → Nat
  | [], acc => acc
  | c :: cs, acc => digitsToNat cs (acc * 10 + (c.toNat - 48))

/-- Model of Python `int(s)` on the strings this module feeds it: succeeds
exactly on nonempty all-digit strings (anything else raises `ValueError`). -/
def parseNat (cs : List Char) : Option Nat :=
  if cs ≠ [] ∧ cs.all isDig then some (digitsToNat cs 0) else none

/-- Fuel-indexed worker for `pySplit`. -/
def pySplitAux (sep : List Char) : Nat → List Char → List Char → List (List Char)
  | 0, acc, cs => [acc.reverse ++ cs]
  | Nat.succ fuel, acc, cs =>
    if sep ≠ [] ∧ sep.isPrefixOf cs then
      acc.reverse :: pySplitAux sep fuel [] (cs.drop sep.length)
    else
      match cs with
      | [] => [acc.reverse]
      | c :: rest => pySplitAux sep fuel (c :: acc) rest

/-- Model of Python `s.split(sep)` for a nonempty separator: left-to-right,
non-overlapping, keeping empty pieces. -/
def pySplit (cs sep : List Char) : List (List Char) :=
  pySplitAux sep (cs.length + 1) [] cs

/-! ## Name Resolver: exact-target-name matching of `_query_mast`
(src/lightkurve/search.py lines 839-852). -/

/-- Function `dropPre p cs` returns `rest` when `cs = p ++ rest`, else `none`
(anchored literal-prefix matching). -/
def dropPre : List Char → List Char → Option (List Char)
  | [], cs => some cs
  | _ :: _, [] => none
  | p :: ps, c :: cs => if p = c then dropPre ps cs else none

/-- Nonempty all-digit test, the `(\d+)$` part of the source's regexes. -/
def allDigits1 (cs : List Char) : Bool := !cs.isEmpty && cs.all isDig

/-- The ` ?(\d+)$` part of the source's regexes: an optional single space
followed by one or more digits, consuming the whole rest of the string. -/
def optSpaceDigits (cs : List Char) : Option (List Char) :=
  match cs with
  | [] => none
  | c :: rest =>
    if c = ' ' then (if allDigits1 rest then some rest else none)
    else (if allDigits1 (c :: rest) then some (c :: rest) else none)

/-- Anchored match of `^pre ?(\d+)$` against `cs`, returning the digit group. -/
def idMatch (pre : String) (cs : List Char) : Option (List Char) :=
  match dropPre pre.toList cs with
  | none => none
  | some rest => optSpaceDigits rest

/-- First-of-two alternation (the `(a|b)` groups of the source's regexes;
the two alternatives are anchored and mutually exclusive). -/
def pick2 (a b : Option (List Char)) : Option (List Char) :=
  match a with
  | some d => some d
  | none => b

/-- The exact-target-name resolution of `_query_mast` (lines 839-852): the
target string is lowercased, matched against `^(kplr|kic) ?(\d+)$`,
`^(ktwo|epic) ?(\d+)$` and `^(tess|tic) ?(\d+)$`, and the matching family
produces its zero-padded identifier (later matches overwrite earlier ones,
which is immaterial because the patterns are mutually exclusive). -/
def exactTargetName (target : String) : Option String :=
  let cs := (strLower target).toList
  match pick2 (idMatch "tess" cs) (idMatch "tic" cs) with
  | some d => some (String.mk (zfill9 d))
  | none =>
    match pick2 (idMatch "ktwo" cs) (idMatch "epic" cs) with
    | some d => some ("ktwo" ++ String.mk (zfill9 d))
    | none =>
      match pick2 (idMatch "kplr" cs) (idMatch "kic" cs) with
      | some d => some ("kplr" ++ String.mk (zfill9 d))
      | none => none

/-- The bare-integer ambiguity warnings of `_search_products` (lines
667-675), kept bit-for-bit faithful to the source, including the
`(0 < 200000000)` comparison exactly as written there. -/
def bareIntWarning (target : Int) : Option String :=
  if 0 < target ∧ target < 13161030 then
    some "may refer to a different Kepler or TESS target; add the prefix KIC or TIC"
  else if (0 : Int) < 200000000 ∧ target < 251813739 then
    some "may refer to a different K2 or TESS target; add the prefix EPIC or TIC"
  else none

/-- Which branch of `_query_mast` produces the returned observation table. -/
inductive QueryPath where
  | exactName (name : String)
  | cone
deriving DecidableEq, Repr

/-- The query dispatch of `_query_mast` (lines 854-885): the exact
`target_name` query is issued only when a prefixed identifier was recognised
and no radius was given, and its result is kept only when it is nonempty;
every other case is a cone search.  `exactHits` abstracts the number of rows
the remote service returns for an exact-name query. -/
def queryMastPath (target : String) (radius : Option Rat) (exactHits : String → Nat) :
    QueryPath :=
  match exactTargetName target, radius with
  | some name, none =>
    if exactHits name > 0 then QueryPath.exactName name else QueryPath.cone
  | _, _ => QueryPath.cone

/-! ## Data model: one row of the joined observation/product table. -/

/-- One row of the joined product table, restricted to the columns the
filtering pipeline reads. -/
structure ProductRow where
  provenance_name : String
  description : String
  productFilename : String
  dataURI : String
  distance : Rat
deriving DecidableEq, Repr

/-- Test `provenance_name.lower() == "kepler"` for a row. -/
def isKeplerProv (r : ProductRow) : Bool := strLower r.provenance_name == "kepler"

/-- Test `provenance_name.lower() == "k2"` for a row. -/
def isK2Prov (r : ProductRow) : Bool := strLower r.provenance_name == "k2"

/-- Test `provenance_name.lower() == "spoc"` for a row. -/
def isSpocProv (r : ProductRow) : Bool := strLower r.provenance_name == "spoc"

/-! ## Mission-specific masks (lines 956-1044). -/

/-- The cadence/filetype description substring selected by
`_mask_kepler_products` and `_mask_k2_products` (lines 963-969 and
1017-1023). -/
def cadenceDescriptionString (cadence filetype : String) : String :=
  if cadence = "short" ∨ cadence = "sc" then filetype ++ " Short"
  else if cadence = "any" ∨ cadence = "both" then filetype
  else filetype ++ " Long"

/-- The per-quarter description test of `_mask_kepler_products` (line 978):
the description, lowercased and with hyphens removed, ends in `q<N>`. -/
def quarterSuffixMatch (q : Nat) (desc : String) : Bool :=
  strEndsWith (stripHyphens (strLower desc)) ("q" ++ Nat.repr q)

/-- Quarter extraction of line 995:
`int(description.split(' - ')[-1][1:].replace('-', ''))`; `none` models a
`ValueError` from `int`. -/
def parseQuarterFromDesc (desc : String) : Option Nat :=
  parseNat ((((pySplit desc.toList " - ".toList).getLastD []).drop 1).filter
    (fun c => c != '-'))

/-- Date extraction of line 996:
`dataURI.split('/')[-1].split('-')[1].split('_')[0]`; `none` models the
uncaught `IndexError` when the file name contains no hyphen. -/
def parseDateFromURI (uri : String) : Option String :=
  let fname := (pySplit uri.toList "/".toList).getLastD []
  let parts := pySplit fname "-".toList
  match parts[1]? with
  | none => none
  | some p => some (String.mk ((pySplit p "_".toList).headD []))

/-- One iteration of the month loop of `_mask_kepler_products` (lines
994-1006) for a row whose current mask bit is `b`: short-cadence candidate
rows keep their bit only when the embedded date is one of the permitted
start dates; month-lookup misses (`IndexError` inside the `try`) are
silently skipped via `filterMap`, while parse failures escape as errors. -/
def monthStep (lookup : Nat → Nat → Option String) (months : List Nat)
    (r : ProductRow) (b : Bool) : Except String Bool :=
  if b && strContains r.description "Short" then
    match parseQuarterFromDesc r.description with
    | none => Except.error "ValueError: invalid literal for int"
    | some q =>
      match parseDateFromURI r.dataURI with
      | none => Except.error "IndexError: list index out of range"
      | some date =>
        let permittedDates := months.filterMap (fun m => lookup q m)
        if date ∈ permittedDates then Except.ok b else Except.ok false
  else Except.ok b

/-- The month loop of `_mask_kepler_products` applied to every row/bit pair. -/
def keplerMonthFilter (lookup : Nat → Nat → Option String) (months : List Nat) :
    List (ProductRow × Bool) → Except String (List Bool)
  | [] => Except.ok []
  | p :: rest =>
    match monthStep lookup months p.1 p.2 with
    | Except.error e => Except.error e
    | Except.ok b =>
      match keplerMonthFilter lookup months rest with
      | Except.error e => Except.error e
      | Except.ok bs => Except.ok (b :: bs)

/-- Model of `_mask_kepler_products` (lines 956-1008).  `lookup q m` abstracts the
`short_cadence_month_lookup.csv` table: the `StartTime` of the first row
with the given quarter and month, if any. -/
def _mask_kepler_products (lookup : Nat → Nat → Option String)
    (products : List ProductRow) (quarter month : Option (List Nat))
    (cadence filetype : String) : Except String (List Bool) :=
  let mask := products.map isKeplerProv
  if mask.count true = 0 then Except.ok mask
  else
    let mask := List.zipWith and mask
      (products.map (fun r =>
        strContains r.description (cadenceDescriptionString cadence filetype)))
    let mask := match quarter with
      | none => mask
      | some qs =>
        List.zipWith and mask
          (products.map (fun r => qs.any (fun q => quarterSuffixMatch q r.description)))
    match month with
    | none => Except.ok mask
    | some ms => keplerMonthFilter lookup ms (products.zip mask)

/-- Model of `_mask_k2_products` (lines 1011-1026); as in the source, the `campaign`
argument is accepted but never used. -/
def _mask_k2_products (products : List ProductRow) (_campaign : Option (List Nat))
    (cadence filetype : String) : List Bool :=
  let mask := products.map isK2Prov
  if mask.count true = 0 then mask
  else
    List.zipWith and mask
      (products.map (fun r =>
        strContains r.description (cadenceDescriptionString cadence filetype)))

/-- The `description_string` assignment of `_mask_spoc_products` (lines
1036-1041): `none` when the `if/elif/elif` chain falls through and the
variable is never assigned. -/
def spocDescriptionString (filetype : String) : Option String :=
  if strLower filetype = "lightcurve" then some "Light curves"
  else if strLower filetype = "target pixel" then some "Target pixel files"
  else if strLower filetype = "ffi" then some "TESScut"
  else none

/-- The Python error raised when line 1042 reads the never-assigned
`description_string`. -/
def spocUnboundMsg : String :=
  "UnboundLocalError: local variable description_string referenced before assignment"

/-- Model of `_mask_spoc_products` (lines 1029-1044); as in the source, the `sector`
argument is accepted but never used, and an unrecognised `filetype` reaches
the use of the unassigned `description_string` whenever at least one SPOC
row is present. -/
def _mask_spoc_products (products : List ProductRow) (_sector : Option (List Nat))
    (filetype : String) : Except String (List Bool) :=
  let mask := products.map isSpocProv
  if mask.count true = 0 then Except.ok mask
  else
    match spocDescriptionString filetype with
    | none => Except.error spocUnboundMsg
    | some ds =>
      Except.ok (List.zipWith and mask
        (products.map (fun r => strContains r.description ds)))

/-! ## Mask combination and final filter (`_filter_products`, lines 891-953). -/

/-- The `provenance_lower` computation of lines 919-922. -/
def provLower (provenance_name : Option (List String)) : List String :=
  match provenance_name with
  | none => ["kepler", "k2", "spoc"]
  | some ps => ps.map strLower

/-- The family-mask combination stage of `_filter_products` (lines 924-941):
start from an all-true mask, for each family clear that family's rows and
re-admit them through the family's own mask when the family is requested and
no conflicting sequence-number filter is set. -/
def familyMask (lookup : Nat → Nat → Option String) (products : List ProductRow)
    (campaign quarter month sector : Option (List Nat)) (cadence : String)
    (provenance_name : Option (List String)) (filetype : String) :
    Except String (List Bool) :=
  let provenance_lower := provLower provenance_name
  let mask1 := List.zipWith and (List.replicate products.length true)
    (products.map (fun r => !(isKeplerProv r)))
  let step2 : Except String (List Bool) :=
    if "kepler" ∈ provenance_lower ∧ campaign = none ∧ sector = none then
      match _mask_kepler_products lookup products quarter month cadence filetype with
      | Except.error e => Except.error e
      | Except.ok km => Except.ok (List.zipWith or mask1 km)
    else Except.ok mask1
  match step2 with
  | Except.error e => Except.error e
  | Except.ok mask2 =>
    let mask3 := List.zipWith and mask2 (products.map (fun r => !(isK2Prov r)))
    let mask4 :=
      if "k2" ∈ provenance_lower ∧ quarter = none ∧ sector = none then
        List.zipWith or mask3 (_mask_k2_products products campaign cadence filetype)
      else mask3
    let mask5 := List.zipWith and mask4 (products.map (fun r => !(isSpocProv r)))
    if "spoc" ∈ provenance_lower ∧ quarter = none ∧ campaign = none then
      match _mask_spoc_products products sector filetype with
      | Except.error e => Except.error e
      | Except.ok sm => Except.ok (List.zipWith or mask5 sm)
    else Except.ok mask5

/-- The filename extension filter of lines 944-946: the source tests
`endswith('fits')` and `endswith('fits.gz')` on the lowercased filename
(note: no leading dot). -/
def fitsOk (r : ProductRow) : Bool :=
  strEndsWith (strLower r.productFilename) "fits"
    || strEndsWith (strLower r.productFilename) "fits.gz"

/-- Row selection `products[mask]`: keep the rows whose mask bit is true. -/
def applyMask {α : Type} (rows : List α) (mask : List Bool) : List α :=
  ((rows.zip mask).filter (fun p => p.2)).map (fun p => p.1)

/-- The sort key order of line 950, `sort(['distance', 'productFilename'])`:
ascending distance, ties broken by code-point lexicographic filename order. -/
def charListLE : List Char → List Char → Bool
  | [], _ => true
  | _ :: _, [] => false
  | a :: as, b :: bs =>
    if a.toNat < b.toNat then true
    else if b.toNat < a.toNat then false
    else charListLE as bs

/-- Row order used by the final sort of `_filter_products`. -/
def rowLE (a b : ProductRow) : Prop :=
  a.distance < b.distance ∨
    (a.distance = b.distance ∧
      charListLE a.productFilename.toList b.productFilename.toList = true)

instance : DecidableRel rowLE := fun a b => by unfold rowLE; infer_instance

/-- Model of `_filter_products` (lines 891-953): combine the family masks, apply the
extension filter, sort by (distance, filename) and truncate to `limit`; as
in the source, the `project` argument is accepted but never used. -/
def _filter_products (lookup : Nat → Nat → Option String) (products : List ProductRow)
    (campaign quarter month sector : Option (List Nat)) (cadence : String)
    (limit : Option Nat) (_project : List String)
    (provenance_name : Option (List String)) (filetype : String) :
    Except String (List ProductRow) :=
  match familyMask lookup products campaign quarter month sector cadence
      provenance_name filetype with
  | Except.error e => Except.error e
  | Except.ok mask =>
    let mask := List.zipWith and mask (products.map fitsOk)
    let kept := applyMask products mask
    let sortedRows := List.insertionSort rowLE kept
    match limit with
    | none => Except.ok sortedRows
    | some n => Except.ok (sortedRows.take n)

/-! ## Result container: download entry points (lines 211-289). -/

/-- The warning emitted by both download entry points on an empty table. -/
def emptyDownloadWarning : String := "Cannot download from an empty search result."

/-- The warning emitted by `download` on a multi-row table. -/
def multiRowWarning : String := "Only the first file has been downloaded."

/-- Control flow of `SearchResult.download` (lines 211-227): empty table
warns and returns a null value; a multi-row table warns and fetches only the
first row.  `fetchOne` abstracts `_download_one`. -/
def download {α : Type} (table : List ProductRow)
    (fetchOne : ProductRow → Except String α) :
    Except String (Option α) × List String :=
  match table with
  | [] => (Except.ok none, [emptyDownloadWarning])
  | r :: rest =>
    let warns := if rest = [] then [] else [multiRowWarning]
    match fetchOne r with
    | Except.ok x => (Except.ok (some x), warns)
    | Except.error e => (Except.error e, warns)

/-- Control flow of `SearchResult.download_all` (lines 273-289): empty table
warns and returns a null value; otherwise every row is fetched sequentially. -/
def download_all {α : Type} (table : List ProductRow)
    (fetchOne : ProductRow → Except String α) :
    Except String (Option (List α)) × List String :=
  match table with
  | [] => (Except.ok none, [emptyDownloadWarning])
  | _ =>
    match table.mapM fetchOne with
    | Except.ok xs => (Except.ok (some xs), [])
    | Except.error e => (Except.error e, [])

/-! ## Per-row characterisations of the family masks. -/

/-- Per-row value of the Kepler mask (no month filter): Kepler provenance,
cadence/filetype description substring, and — when quarters were requested —
a matching `q<N>` description suffix. -/
def keplerRowPred (quarter : Option (List Nat)) (cadence filetype : String)
    (r : ProductRow) : Bool :=
  isKeplerProv r
    && strContains r.description (cadenceDescriptionString cadence filetype)
    && (match quarter with
        | none => true
        | some qs => qs.any (fun q => quarterSuffixMatch q r.description))

/-- Per-row value of the K2 mask. -/
def k2RowPred (cadence filetype : String) (r : ProductRow) : Bool :=
  isK2Prov r && strContains r.description (cadenceDescriptionString cadence filetype)

/-- Per-row value of the SPOC mask, given the resolved description string. -/
def spocRowPred (ds : String) (r : ProductRow) : Bool :=
  isSpocProv r && strContains r.description ds

/-- Per-row value of the combined family mask, mirroring the clear-then-
re-admit mask algebra of lines 924-941 literally; the three `Bool` gates are
the three re-admission conditions. -/
def familyRowPred (kg k2g sg : Bool) (quarter : Option (List Nat))
    (cadence filetype ds : String) (r : ProductRow) : Bool :=
  let m1 := and true (!(isKeplerProv r))
  let m2 := if kg then or m1 (keplerRowPred quarter cadence filetype r) else m1
  let m3 := and m2 (!(isK2Prov r))
  let m4 := if k2g then or m3 (k2RowPred cadence filetype r) else m3
  let m5 := and m4 (!(isSpocProv r))
  if sg then or m5 (spocRowPred ds r) else m5

/-! ## List helper lemmas. -/

theorem zipWith_map_map {α : Type} (g : Bool → Bool → Bool) (f h : α → Bool)
    (l : List α) :
    List.zipWith g (l.map f) (l.map h) = l.map (fun x => g (f x) (h x)) := by
  induction l with
  | nil => rfl
  | cons x xs ih => simp [ih]

theorem zipWith_replicate_map {α : Type} (g : Bool → Bool → Bool) (b : Bool)
    (f : α → Bool) (l : List α) :
    List.zipWith g (List.replicate l.length b) (l.map f)
      = l.map (fun x => g b (f x)) := by
  induction l with
  | nil => rfl
  | cons x xs ih => simp [List.replicate_succ, ih]

theorem all_false_of_count_true_zero {α : Type} {f : α → Bool} {l : List α}
    (h : (l.map f).count true = 0) : ∀ x ∈ l, f x = false := by
  intro x hx
  cases hfx : f x with
  | false => rfl
  | true =>
    have hmem : true ∈ l.map f := List.mem_map.mpr ⟨x, hx, hfx⟩
    exact absurd hmem (List.count_eq_zero.mp h)

/-! ## Stage lemmas: per-row characterisation of each family mask. -/

/-- With no month filter, `_mask_kepler_products` is the row-wise map of
`keplerRowPred`. -/
theorem mask_kepler_eq (lookup : Nat → Nat → Option String)
    (products : List ProductRow) (quarter : Option (List Nat))
    (cadence filetype : String) :
    _mask_kepler_products lookup products quarter none cadence filetype
      = Except.ok (products.map (keplerRowPred quarter cadence filetype)) := by
  unfold _mask_kepler_products
  by_cases h0 : (products.map isKeplerProv).count true = 0
  · rw [if_pos h0]
    have hall := all_false_of_count_true_zero h0
    refine congrArg Except.ok (List.map_congr_left fun r hr => ?_)
    simp [keplerRowPred, hall r hr]
  · rw [if_neg h0]
    cases quarter with
    | none =>
      simp only [zipWith_map_map]
      refine congrArg Except.ok (List.map_congr_left fun r _ => ?_)
      simp [keplerRowPred]
    | some qs =>
      simp only [zipWith_map_map]
      refine congrArg Except.ok (List.map_congr_left fun r _ => ?_)
      simp [keplerRowPred, Bool.and_assoc]

/-- Lemma: `_mask_k2_products` is the row-wise map of `k2RowPred`. -/
theorem mask_k2_eq (products : List ProductRow) (campaign : Option (List Nat))
    (cadence filetype : String) :
    _mask_k2_products products campaign cadence filetype
      = products.map (k2RowPred cadence filetype) := by
  unfold _mask_k2_products
  by_cases h0 : (products.map isK2Prov).count true = 0
  · rw [if_pos h0]
    have hall := all_false_of_count_true_zero h0
    refine List.map_congr_left fun r hr => ?_
    simp [k2RowPred, hall r hr]
  · rw [if_neg h0]
    simp only [zipWith_map_map]
    exact List.map_congr_left fun r _ => rfl

/-- When the filetype is recognised, `_mask_spoc_products` is the row-wise
map of `spocRowPred`. -/
theorem mask_spoc_eq (products : List ProductRow) (sector : Option (List Nat))
    (filetype ds : String) (hds : spocDescriptionString filetype = some ds) :
    _mask_spoc_products products sector filetype
      = Except.ok (products.map (spocRowPred ds)) := by
  unfold _mask_spoc_products
  by_cases h0 : (products.map isSpocProv).count true = 0
  · rw [if_pos h0]
    have hall := all_false_of_count_true_zero h0
    refine congrArg Except.ok (List.map_congr_left fun r hr => ?_)
    simp [spocRowPred, hall r hr]
  · rw [if_neg h0, hds]
    simp only [zipWith_map_map]
    exact congrArg Except.ok (List.map_congr_left fun r _ => rfl)

/-- Master lemma: with no month filter, the whole family-mask combination
stage is the row-wise map of `familyRowPred`, with the three gates decided
from the requested provenances and sequence-number filters. -/
theorem familyMask_eq (lookup : Nat → Nat → Option String)
    (products : List ProductRow) (campaign quarter sector : Option (List Nat))
    (cadence : String) (provenance_name : Option (List String))
    (filetype ds : String)
    (hds : ("spoc" ∈ provLower provenance_name ∧ quarter = none ∧ campaign = none) →
      spocDescriptionString filetype = some ds) :
    familyMask lookup products campaign quarter none sector cadence
        provenance_name filetype
      = Except.ok (products.map (familyRowPred
          (decide ("kepler" ∈ provLower provenance_name ∧ campaign = none ∧ sector = none))
          (decide ("k2" ∈ provLower provenance_name ∧ quarter = none ∧ sector = none))
          (decide ("spoc" ∈ provLower provenance_name ∧ quarter = none ∧ campaign = none))
          quarter cadence filetype ds)) := by
  unfold familyMask
  dsimp only
  rw [zipWith_replicate_map]
  by_cases h1 : "kepler" ∈ provLower provenance_name ∧ campaign = none ∧ sector = none
  case pos =>
    rw [if_pos h1, mask_kepler_eq, decide_eq_true h1]
    simp only [zipWith_map_map]
    by_cases h2 : "k2" ∈ provLower provenance_name ∧ quarter = none ∧ sector = none
    · rw [if_pos h2, mask_k2_eq, decide_eq_true h2]
      simp only [zipWith_map_map]
      by_cases h3 : "spoc" ∈ provLower provenance_name ∧ quarter = none ∧ campaign = none
      · rw [if_pos h3, mask_spoc_eq products sector filetype ds (hds h3),
          decide_eq_true h3]
        simp only [zipWith_map_map]
        exact congrArg Except.ok (List.map_congr_left fun r _ => by
          simp [familyRowPred])
      · rw [if_neg h3, decide_eq_false h3]
        exact congrArg Except.ok (List.map_congr_left fun r _ => by
          simp [familyRowPred])
    · rw [if_neg h2, decide_eq_false h2]
      simp only [zipWith_map_map]
      by_cases h3 : "spoc" ∈ provLower provenance_name ∧ quarter = none ∧ campaign = none
      · rw [if_pos h3, mask_spoc_eq products sector filetype ds (hds h3),
          decide_eq_true h3]
        simp only [zipWith_map_map]
        exact congrArg Except.ok (List.map_congr_left fun r _ => by
          simp [familyRowPred])
      · rw [if_neg h3, decide_eq_false h3]
        exact congrArg Except.ok (List.map_congr_left fun r _ => by
          simp [familyRowPred])
  case neg =>
    rw [if_neg h1, decide_eq_false h1]
    simp only [zipWith_map_map]
    by_cases h2 : "k2" ∈ provLower provenance_name ∧ quarter = none ∧ sector = none
    · rw [if_pos h2, mask_k2_eq, decide_eq_true h2]
      simp only [zipWith_map_map]
      by_cases h3 : "spoc" ∈ provLower provenance_name ∧ quarter = none ∧ campaign = none
      · rw [if_pos h3, mask_spoc_eq products sector filetype ds (hds h3),
          decide_eq_true h3]
        simp only [zipWith_map_map]
        exact congrArg Except.ok (List.map_congr_left fun r _ => by
          simp [familyRowPred])
      · rw [if_neg h3, decide_eq_false h3]
        exact congrArg Except.ok (List.map_congr_left fun r _ => by
          simp [familyRowPred])
    · rw [if_neg h2, decide_eq_false h2]
      simp only [zipWith_map_map]
      by_cases h3 : "spoc" ∈ provLower provenance_name ∧ quarter = none ∧ campaign = none
      · rw [if_pos h3, mask_spoc_eq products sector filetype ds (hds h3),
          decide_eq_true h3]
        simp only [zipWith_map_map]
        exact congrArg Except.ok (List.map_congr_left fun r _ => by
          simp [familyRowPred])
      · rw [if_neg h3, decide_eq_false h3]
        exact congrArg Except.ok (List.map_congr_left fun r _ => by
          simp [familyRowPred])

/-! ## Properties of the sort order. -/

theorem charListLE_total : ∀ x y : List Char,
    charListLE x y = true ∨ charListLE y x = true
  | [], _ => Or.inl rfl
  | _ :: _, [] => Or.inr rfl
  | a :: as, b :: bs => by
    unfold charListLE
    rcases Nat.lt_trichotomy a.toNat b.toNat with h | h | h
    · left; simp [h]
    · have h1 : ¬ a.toNat < b.toNat := by omega
      have h2 : ¬ b.toNat < a.toNat := by omega
      rcases charListLE_total as bs with ht | ht
      · left; simp [h1, h2, ht]
      · right; simp [h1, h2, ht]
    · right; simp [h]

theorem charListLE_trans : ∀ x y z : List Char,
    charListLE x y = true → charListLE y z = true → charListLE x z = true
  | [], _, _, _, _ => rfl
  | _ :: _, [], _, h1, _ => by simp [charListLE] at h1
  | _ :: _, _ :: _, [], _, h2 => by simp [charListLE] at h2
  | a :: as, b :: bs, c :: cs, h1, h2 => by
    simp only [charListLE] at h1 h2 ⊢
    by_cases hab : a.toNat < b.toNat
    · by_cases hbc : b.toNat < c.toNat
      · simp [Nat.lt_trans hab hbc]
      · by_cases hcb : c.toNat < b.toNat
        · rw [if_neg hbc, if_pos hcb] at h2; exact absurd h2 (by simp)
        · have hac : a.toNat < c.toNat := by omega
          simp [hac]
    · by_cases hba : b.toNat < a.toNat
      · rw [if_neg hab, if_pos hba] at h1; exact absurd h1 (by simp)
      · rw [if_neg hab, if_neg hba] at h1
        by_cases hbc : b.toNat < c.toNat
        · have hac : a.toNat < c.toNat := by omega
          simp [hac]
        · by_cases hcb : c.toNat < b.toNat
          · rw [if_neg hbc, if_pos hcb] at h2; exact absurd h2 (by simp)
          · rw [if_neg hbc, if_neg hcb] at h2
            have h3 : ¬ a.toNat < c.toNat := by omega
            have h4 : ¬ c.toNat < a.toNat := by omega
            rw [if_neg h3, if_neg h4]
            exact charListLE_trans as bs cs h1 h2

instance : IsTotal ProductRow rowLE := by
  refine ⟨fun a b => ?_⟩
  rcases lt_trichotomy a.distance b.distance with h | h | h
  · exact Or.inl (Or.inl h)
  · rcases charListLE_total a.productFilename.toList b.productFilename.toList with ht | ht
    · exact Or.inl (Or.inr ⟨h, ht⟩)
    · exact Or.inr (Or.inr ⟨h.symm, ht⟩)
  · exact Or.inr (Or.inl h)

instance : IsTrans ProductRow rowLE := by
  refine ⟨fun a b c hab hbc => ?_⟩
  rcases hab with h1 | ⟨e1, f1⟩
  · rcases hbc with h2 | ⟨e2, f2⟩
    · exact Or.inl (lt_trans h1 h2)
    · exact Or.inl (e2 ▸ h1)
  · rcases hbc with h2 | ⟨e2, f2⟩
    · exact Or.inl (e1 ▸ h2)
    · exact Or.inr ⟨e1.trans e2, charListLE_trans _ _ _ f1 f2⟩

/-! ## Properties of `applyMask`. -/

theorem applyMask_cons {α : Type} (x : α) (xs : List α) (b : Bool) (bs : List Bool) :
    applyMask (x :: xs) (b :: bs)
      = if b then x :: applyMask xs bs else applyMask xs bs := by
  cases b <;> simp [applyMask]

/-- Every row that survives a mask conjoined with a row-wise predicate map
satisfies that predicate. -/
theorem pred_of_mem_applyMask {α : Type} (f : α → Bool) :
    ∀ (l : List α) (m : List Bool) (r : α),
      r ∈ applyMask l (List.zipWith and m (l.map f)) → f r = true
  | [], _, r, h => by simp [applyMask] at h
  | _ :: _, [], r, h => by simp [applyMask] at h
  | x :: xs, b :: bs, r, h => by
    simp only [List.map_cons, List.zipWith_cons_cons] at h
    rw [applyMask_cons] at h
    by_cases hb : (and b (f x)) = true
    · rw [if_pos hb] at h
      rcases List.mem_cons.mp h with hr | hr
      · subst hr
        rw [Bool.and_eq_true] at hb
        exact hb.2
      · exact pred_of_mem_applyMask f xs bs r hr
    · rw [if_neg hb] at h
      exact pred_of_mem_applyMask f xs bs r h

/-! ## Properties of the month filter. -/

/-- A short-cadence candidate row whose (quarter, month) pairs all miss the
lookup table gets its mask bit cleared, without any error. -/
theorem monthStep_lookup_miss (lookup : Nat → Nat → Option String)
    (months : List Nat) (r : ProductRow) (q : Nat) (date : String)
    (hshort : strContains r.description "Short" = true)
    (hq : parseQuarterFromDesc r.description = some q)
    (hdate : parseDateFromURI r.dataURI = some date)
    (hmiss : ∀ m ∈ months, lookup q m = none) :
    monthStep lookup months r true = Except.ok false := by
  unfold monthStep
  rw [if_pos (by simp [hshort]), hq, hdate]
  dsimp only
  rw [List.filterMap_eq_nil_iff.mpr hmiss]
  simp

/-- A step whose parses succeed (or which is not a short-cadence candidate)
cannot raise. -/
theorem monthStep_isOk (lookup : Nat → Nat → Option String) (months : List Nat)
    (r : ProductRow) (b : Bool)
    (hparse : (b && strContains r.description "Short") = true →
      (parseQuarterFromDesc r.description).isSome = true ∧
      (parseDateFromURI r.dataURI).isSome = true) :
    ∃ c, monthStep lookup months r b = Except.ok c := by
  unfold monthStep
  by_cases h : (b && strContains r.description "Short") = true
  · rw [if_pos h]
    obtain ⟨h1, h2⟩ := hparse h
    obtain ⟨q, hq⟩ := Option.isSome_iff_exists.mp h1
    obtain ⟨d, hd⟩ := Option.isSome_iff_exists.mp h2
    rw [hq, hd]
    dsimp only
    by_cases hmem : d ∈ months.filterMap (fun m => lookup q m)
    · exact ⟨b, if_pos hmem⟩
    · exact ⟨false, if_neg hmem⟩
  · rw [if_neg h]
    exact ⟨b, rfl⟩

/-- If every step succeeds, the month loop succeeds, preserves length, and
is computed pointwise. -/
theorem keplerMonthFilter_ok (lookup : Nat → Nat → Option String)
    (months : List Nat) :
    ∀ l : List (ProductRow × Bool),
      (∀ p ∈ l, ∃ c, monthStep lookup months p.1 p.2 = Except.ok c) →
      ∃ out, keplerMonthFilter lookup months l = Except.ok out ∧
        out.length = l.length ∧
        ∀ (i : Nat) (p : ProductRow × Bool) (c : Bool), l[i]? = some p →
          monthStep lookup months p.1 p.2 = Except.ok c → out[i]? = some c
  | [], _ => ⟨[], rfl, rfl, by intro i p c hp; simp at hp⟩
  | p :: rest, hall => by
    obtain ⟨b, hb⟩ := hall p (List.mem_cons_self p rest)
    obtain ⟨out, hout, hlen, hpt⟩ :=
      keplerMonthFilter_ok lookup months rest
        (fun q hq => hall q (List.mem_cons_of_mem p hq))
    refine ⟨b :: out, ?_, by simp [hlen], ?_⟩
    · unfold keplerMonthFilter
      rw [hb, hout]
    · intro i q c hq hc
      cases i with
      | zero =>
        simp only [List.getElem?_cons_zero, Option.some.injEq] at hq
        subst hq
        rw [hb] at hc
        simp only [List.getElem?_cons_zero, Option.some.injEq]
        exact (Except.ok.inj hc).symm ▸ rfl
      | succ n =>
        simp only [List.getElem?_cons_succ] at hq ⊢
        exact hpt n q c hq hc

/-! ## Inversion of the identifier parser. -/

theorem dropPre_eq_some : ∀ {p cs rest : List Char},
    dropPre p cs = some rest ↔ cs = p ++ rest
  | [], cs, rest => by simp [dropPre]
  | p :: ps, [], rest => by simp [dropPre]
  | p :: ps, c :: cs, rest => by
    simp only [dropPre]
    by_cases h : p = c
    · subst h
      rw [if_pos rfl, dropPre_eq_some]
      simp
    · rw [if_neg h]
      constructor
      · intro hx; exact absurd hx (by simp)
      · intro hx
        rw [List.cons_append] at hx
        injection hx with h1 _
        exact absurd h1.symm h

theorem allDigits1_eq_true {cs : List Char} :
    allDigits1 cs = true ↔ (cs ≠ [] ∧ cs.all isDig = true) := by
  unfold allDigits1
  rw [Bool.and_eq_true, Bool.not_eq_true']
  constructor
  · rintro ⟨h1, h2⟩
    exact ⟨by simpa [List.isEmpty_iff] using h1, h2⟩
  · rintro ⟨h1, h2⟩
    exact ⟨by simpa [List.isEmpty_iff] using h1, h2⟩

theorem optSpaceDigits_eq_some {cs d : List Char} :
    optSpaceDigits cs = some d ↔
      (d ≠ [] ∧ d.all isDig = true ∧ (cs = d ∨ cs = ' ' :: d)) := by
  cases cs with
  | nil =>
    constructor
    · intro h; exact absurd h (by simp [optSpaceDigits])
    · rintro ⟨hne, _, hcs | hcs⟩
      · exact absurd hcs.symm hne
      · exact absurd hcs (by simp)
  | cons c rest =>
    by_cases hsp : c = ' '
    · subst hsp
      have hred : optSpaceDigits (' ' :: rest)
          = (if allDigits1 rest = true then some rest else none) := rfl
      rw [hred]
      by_cases hd : allDigits1 rest = true
      · rw [if_pos hd]
        obtain ⟨hrne, hrdig⟩ := allDigits1_eq_true.mp hd
        constructor
        · intro h
          injection h with h
          subst h
          exact ⟨hrne, hrdig, Or.inr rfl⟩
        · rintro ⟨hne, hdig, hcs | hcs⟩
          · rw [← hcs] at hdig
            simp only [List.all_cons, Bool.and_eq_true] at hdig
            exact absurd hdig.1 (by decide)
          · injection hcs with h1 h2
            rw [h2]
      · rw [if_neg hd]
        constructor
        · intro h; exact absurd h (by simp)
        · rintro ⟨hne, hdig, hcs | hcs⟩
          · rw [← hcs] at hdig
            simp only [List.all_cons, Bool.and_eq_true] at hdig
            exact absurd hdig.1 (by decide)
          · injection hcs with h1 h2
            subst h2
            exact absurd (allDigits1_eq_true.mpr ⟨hne, hdig⟩) hd
    · have hred : optSpaceDigits (c :: rest)
          = (if allDigits1 (c :: rest) = true then some (c :: rest) else none) := by
        show (if c = ' ' then (if allDigits1 rest = true then some rest else none)
          else (if allDigits1 (c :: rest) = true then some (c :: rest) else none)) = _
        rw [if_neg hsp]
      rw [hred]
      by_cases hd : allDigits1 (c :: rest) = true
      · rw [if_pos hd]
        obtain ⟨_, hrdig⟩ := allDigits1_eq_true.mp hd
        constructor
        · intro h
          injection h with h
          subst h
          exact ⟨by simp, hrdig, Or.inl rfl⟩
        · rintro ⟨hne, hdig, hcs | hcs⟩
          · rw [hcs]
          · injection hcs with h _
            exact absurd h hsp
      · rw [if_neg hd]
        constructor
        · intro h; exact absurd h (by simp)
        · rintro ⟨hne, hdig, hcs | hcs⟩
          · rw [hcs] at hd
            exact absurd (allDigits1_eq_true.mpr ⟨hne, hdig⟩) hd
          · injection hcs with h _
            exact absurd h hsp

theorem idMatch_eq_some {pre : String} {cs d : List Char} :
    idMatch pre cs = some d ↔
      (d ≠ [] ∧ d.all isDig = true ∧
        (cs = pre.toList ++ d ∨ cs = pre.toList ++ ' ' :: d)) := by
  unfold idMatch
  cases hdp : dropPre pre.toList cs with
  | none =>
    constructor
    · intro h; exact absurd h (by simp)
    · rintro ⟨hne, hdig, hcs | hcs⟩
      · have hx : dropPre pre.toList cs = some d := dropPre_eq_some.mpr hcs
        rw [hdp] at hx
        exact absurd hx (by simp)
      · have hx : dropPre pre.toList cs = some (' ' :: d) := dropPre_eq_some.mpr hcs
        rw [hdp] at hx
        exact absurd hx (by simp)
  | some rest =>
    have hcs := dropPre_eq_some.mp hdp
    subst hcs
    rw [optSpaceDigits_eq_some]
    constructor
    · rintro ⟨hne, hdig, hr | hr⟩ <;> subst hr
      · exact ⟨hne, hdig, Or.inl rfl⟩
      · exact ⟨hne, hdig, Or.inr rfl⟩
    · rintro ⟨hne, hdig, hcs | hcs⟩
      · exact ⟨hne, hdig, Or.inl (List.append_cancel_left hcs)⟩
      · exact ⟨hne, hdig, Or.inr (List.append_cancel_left hcs)⟩

theorem pick2_eq_some {a b : Option (List Char)} {d : List Char} :
    pick2 a b = some d ↔ (a = some d ∨ (a = none ∧ b = some d)) := by
  cases a with
  | none => simp [pick2]
  | some x => simp [pick2]

/-! ## Bare digit strings never match an identifier pattern. -/

theorem asciiLower_digit {c : Char} (h : isDig c = true) : asciiLower c = c := by
  unfold isDig at h
  rw [Bool.and_eq_true] at h
  have h2 : c.toNat ≤ 57 := of_decide_eq_true h.2
  unfold asciiLower
  exact if_neg (by omega)

theorem strLower_digits {s : String} (h : ∀ c ∈ s.toList, isDig c = true) :
    (strLower s).toList = s.toList := by
  rw [show (strLower s).toList = s.toList.map asciiLower from rfl]
  conv_rhs => rw [← List.map_id s.toList]
  exact List.map_congr_left fun c hc => asciiLower_digit (h c hc)

theorem exactTargetName_digits (s : String) (hne : s.toList ≠ [])
    (h : ∀ c ∈ s.toList, isDig c = true) : exactTargetName s = none := by
  obtain ⟨c, rest, hcs⟩ : ∃ c rest, s.toList = c :: rest := by
    cases hc : s.toList with
    | nil => exact absurd hc hne
    | cons a as => exact ⟨a, as, rfl⟩
  have hc : isDig c = true := h c (hcs ▸ List.mem_cons_self c rest)
  have hc' := hc
  unfold isDig at hc'
  rw [Bool.and_eq_true] at hc'
  have hlt : c.toNat ≤ 57 := of_decide_eq_true hc'.2
  have ht : ¬ ('t' = c) := by
    intro he; rw [← he] at hlt; exact absurd hlt (by decide)
  have hk : ¬ ('k' = c) := by
    intro he; rw [← he] at hlt; exact absurd hlt (by decide)
  have he' : ¬ ('e' = c) := by
    intro he; rw [← he] at hlt; exact absurd hlt (by decide)
  unfold exactTargetName
  dsimp only
  rw [strLower_digits h, hcs]
  have m1 : idMatch "tess" (c :: rest) = none := by
    unfold idMatch
    rw [show ("tess".toList) = 't' :: ['e', 's', 's'] from rfl, dropPre, if_neg ht]
  have m2 : idMatch "tic" (c :: rest) = none := by
    unfold idMatch
    rw [show ("tic".toList) = 't' :: ['i', 'c'] from rfl, dropPre, if_neg ht]
  have m3 : idMatch "ktwo" (c :: rest) = none := by
    unfold idMatch
    rw [show ("ktwo".toList) = 'k' :: ['t', 'w', 'o'] from rfl, dropPre, if_neg hk]
  have m4 : idMatch "epic" (c :: rest) = none := by
    unfold idMatch
    rw [show ("epic".toList) = 'e' :: ['p', 'i', 'c'] from rfl, dropPre, if_neg he']
  have m5 : idMatch "kplr" (c :: rest) = none := by
    unfold idMatch
    rw [show ("kplr".toList) = 'k' :: ['p', 'l', 'r'] from rfl, dropPre, if_neg hk]
  have m6 : idMatch "kic" (c :: rest) = none := by
    unfold idMatch
    rw [show ("kic".toList) = 'k' :: ['i', 'c'] from rfl, dropPre, if_neg hk]
  rw [m1, m2, m3, m4, m5, m6]
  rfl

/-! ## Provenance exclusivity. -/

theorem kepler_not_k2 {r : ProductRow} (h : isKeplerProv r = true) :
    isK2Prov r = false := by
  unfold isKeplerProv at h
  have he : strLower r.provenance_name = "kepler" := eq_of_beq h
  unfold isK2Prov
  rw [he]
  rfl

theorem kepler_not_spoc {r : ProductRow} (h : isKeplerProv r = true) :
    isSpocProv r = false := by
  unfold isKeplerProv at h
  have he : strLower r.provenance_name = "kepler" := eq_of_beq h
  unfold isSpocProv
  rw [he]
  rfl

theorem k2_not_spoc {r : ProductRow} (h : isK2Prov r = true) :
    isSpocProv r = false := by
  unfold isK2Prov at h
  have he : strLower r.provenance_name = "k2" := eq_of_beq h
  unfold isSpocProv
  rw [he]
  rfl

/-- The mask-algebra per-row value rewritten as a first-match family
dispatch: handled families go through their gate and predicate, unhandled
provenances pass through. -/
theorem familyRowPred_chain (kg k2g sg : Bool) (quarter : Option (List Nat))
    (cadence filetype ds : String) (r : ProductRow) :
    familyRowPred kg k2g sg quarter cadence filetype ds r =
      (if isKeplerProv r then kg && keplerRowPred quarter cadence filetype r
       else if isK2Prov r then k2g && k2RowPred cadence filetype r
       else if isSpocProv r then sg && spocRowPred ds r
       else true) := by
  cases hkep : isKeplerProv r
  case true =>
    have hk2 := kepler_not_k2 hkep
    have hsp := kepler_not_spoc hkep
    cases kg <;> cases k2g <;> cases sg <;>
      simp [familyRowPred, keplerRowPred, k2RowPred, spocRowPred, hkep, hk2, hsp]
  case false =>
    cases hk2 : isK2Prov r
    case true =>
      have hsp := k2_not_spoc hk2
      cases kg <;> cases k2g <;> cases sg <;>
        simp [familyRowPred, keplerRowPred, k2RowPred, spocRowPred, hkep, hk2, hsp]
    case false =>
      cases hsp : isSpocProv r <;>
        cases kg <;> cases k2g <;> cases sg <;>
          simp [familyRowPred, keplerRowPred, k2RowPred, spocRowPred, hkep, hk2, hsp]

/-! ## Claim theorems. -/

/-- C1 counterexample: the claim says every bare unprefixed integer target
emits an ambiguity warning, but the positive integer 300000000 (≥ 251813739)
passes through lines 667-675 without any warning. -/
theorem c1_counterexample :
    bareIntWarning 300000000 = none ∧ (0 : Int) < 300000000 :=
  ⟨rfl, by decide⟩

/-- C1 (amended): a bare integer target never takes the exact-identifier
fast path — its digit string matches none of the prefixed patterns, so
`_query_mast` always performs a cone search — and the ambiguity warning is
emitted exactly for integers below 251813739 (because the second guard
compares `0 < 200000000` instead of the target, every smaller value,
including non-positive ones, warns, and no larger value does). -/
theorem c1_bare_integer_warning_and_cone :
    (∀ t : Int, (bareIntWarning t).isSome = true ↔ t < 251813739) ∧
    (∀ s : String, s.toList ≠ [] → (∀ c ∈ s.toList, isDig c = true) →
      ∀ (radius : Option Rat) (exactHits : String → Nat),
        queryMastPath s radius exactHits = QueryPath.cone) := by
  constructor
  · intro t
    unfold bareIntWarning
    by_cases h1 : 0 < t ∧ t < 13161030
    · rw [if_pos h1]
      simp only [Option.isSome_some, true_iff]
      omega
    · rw [if_neg h1]
      by_cases h2 : (0 : Int) < 200000000 ∧ t < 251813739
      · rw [if_pos h2]
        simp only [Option.isSome_some, true_iff]
        exact h2.2
      · rw [if_neg h2]
        simp only [Option.isSome_none, Bool.false_eq_true, false_iff]
        intro hlt
        exact h2 ⟨by norm_num, hlt⟩
  · intro s hne h radius exactHits
    unfold queryMastPath
    rw [exactTargetName_digits s hne h]

/-- C1 witness: the bare integer 11904151 warns, and the bare digit-string
target "11904151" resolves through the cone-search path. -/
theorem c1_witness :
    (bareIntWarning 11904151).isSome = true ∧
    queryMastPath "11904151" none (fun _ => 1) = QueryPath.cone := by
  constructor
  · exact (c1_bare_integer_warning_and_cone.1 11904151).mpr (by decide)
  · exact c1_bare_integer_warning_and_cone.2 "11904151" (by decide) (by decide)
      none (fun _ => 1)

/-- C2 (confirmed): at the family-mask combination stage (lines 924-941),
with quarter=5 requested and campaign/sector unset, a table whose rows all
have provenance Kepler, K2 or SPOC keeps exactly the Kepler rows whose
description contains the cadence/filetype substring and, case-folded and
hyphen-stripped, ends in "q5"; every K2 and SPOC row's mask bit is false
because their re-admission branches are skipped while quarter is set. -/
theorem c2_quarter_five_filter (lookup : Nat → Nat → Option String)
    (products : List ProductRow) (cadence filetype : String)
    (h : ∀ r ∈ products, strLower r.provenance_name = "kepler" ∨
      strLower r.provenance_name = "k2" ∨ strLower r.provenance_name = "spoc") :
    familyMask lookup products none (some [5]) none none cadence
        (some ["Kepler", "K2", "SPOC"]) filetype
      = Except.ok (products.map (fun r =>
          isKeplerProv r
          && strContains r.description (cadenceDescriptionString cadence filetype)
          && quarterSuffixMatch 5 r.description)) := by
  rw [familyMask_eq lookup products none (some [5]) none cadence
      (some ["Kepler", "K2", "SPOC"]) filetype ""
      (by rintro ⟨-, hq, -⟩; exact absurd hq (by simp))]
  have e1 : decide ("kepler" ∈ provLower (some ["Kepler", "K2", "SPOC"]) ∧
      (none : Option (List Nat)) = none ∧ (none : Option (List Nat)) = none) = true := by
    decide
  have e2 : decide ("k2" ∈ provLower (some ["Kepler", "K2", "SPOC"]) ∧
      (some [5] : Option (List Nat)) = none ∧ (none : Option (List Nat)) = none) = false := by
    decide
  have e3 : decide ("spoc" ∈ provLower (some ["Kepler", "K2", "SPOC"]) ∧
      (some [5] : Option (List Nat)) = none ∧ (none : Option (List Nat)) = none) = false := by
    decide
  rw [e1, e2, e3]
  refine congrArg Except.ok (List.map_congr_left fun r hr => ?_)
  rw [familyRowPred_chain]
  rcases h r hr with hp | hp | hp
  · have hk : isKeplerProv r = true := by unfold isKeplerProv; rw [hp]; rfl
    have h2 := kepler_not_k2 hk
    have h3 := kepler_not_spoc hk
    simp [keplerRowPred, hk, h2, h3]
  · have hk : isKeplerProv r = false := by unfold isKeplerProv; rw [hp]; rfl
    have h2 : isK2Prov r = true := by unfold isK2Prov; rw [hp]; rfl
    simp [hk, h2]
  · have hk : isKeplerProv r = false := by unfold isKeplerProv; rw [hp]; rfl
    have h2 : isK2Prov r = false := by unfold isK2Prov; rw [hp]; rfl
    have h3 : isSpocProv r = true := by unfold isSpocProv; rw [hp]; rfl
    simp [hk, h2, h3]

/-- C2 witness: one row of each provenance; only the Kepler Q5 long-cadence
light-curve row survives the mask stage. -/
theorem c2_witness :
    familyMask (fun _ _ => none)
        [⟨"Kepler", "Lightcurve Long Cadence (CLC) - Q5", "a.fits", "u", 0⟩,
         ⟨"K2", "Lightcurve Long Cadence (CLC) - C05", "b.fits", "u", 0⟩,
         ⟨"SPOC", "Light curves", "c.fits", "u", 0⟩]
        none (some [5]) none none "long" (some ["Kepler", "K2", "SPOC"]) "Lightcurve"
      = Except.ok [true, false, false] := by
  rw [c2_quarter_five_filter (fun _ _ => none) _ "long" "Lightcurve" (by decide)]
  rfl

/-- C3 (confirmed): the cadence mapping of `_mask_kepler_products` and
`_mask_k2_products`: "short"/"sc" select the "<Filetype> Short" substring,
"any"/"both" select the bare "<Filetype>" substring, and every other value
(including the default "long") selects "<Filetype> Long"; a row of the
Kepler (resp. K2) family is kept by the cadence/filetype stage exactly when
its description contains that substring. -/
theorem c3_cadence_mapping :
    (∀ filetype : String,
      cadenceDescriptionString "short" filetype = filetype ++ " Short" ∧
      cadenceDescriptionString "sc" filetype = filetype ++ " Short" ∧
      cadenceDescriptionString "any" filetype = filetype ∧
      cadenceDescriptionString "both" filetype = filetype) ∧
    (∀ cadence filetype : String,
      cadence ≠ "short" → cadence ≠ "sc" → cadence ≠ "any" → cadence ≠ "both" →
      cadenceDescriptionString cadence filetype = filetype ++ " Long") ∧
    (∀ (lookup : Nat → Nat → Option String) (products : List ProductRow)
        (cadence filetype : String),
      _mask_kepler_products lookup products none none cadence filetype
        = Except.ok (products.map (fun r =>
            isKeplerProv r &&
              strContains r.description (cadenceDescriptionString cadence filetype)))) ∧
    (∀ (products : List ProductRow) (campaign : Option (List Nat))
        (cadence filetype : String),
      _mask_k2_products products campaign cadence filetype
        = products.map (fun r =>
            isK2Prov r &&
              strContains r.description (cadenceDescriptionString cadence filetype))) := by
  refine ⟨?_, ?_, ?_, ?_⟩
  · intro filetype
    refine ⟨?_, ?_, ?_, ?_⟩
    · exact if_pos (Or.inl rfl)
    · exact if_pos (Or.inr rfl)
    · rw [cadenceDescriptionString, if_neg (by decide), if_pos (Or.inl rfl)]
    · rw [cadenceDescriptionString, if_neg (by decide), if_pos (Or.inr rfl)]
  · intro cadence filetype h1 h2 h3 h4
    rw [cadenceDescriptionString, if_neg (by rintro (h | h) <;> contradiction),
      if_neg (by rintro (h | h) <;> contradiction)]
  · intro lookup products cadence filetype
    rw [mask_kepler_eq]
    refine congrArg Except.ok (List.map_congr_left fun r _ => ?_)
    simp [keplerRowPred]
  · intro products campaign cadence filetype
    exact mask_k2_eq products campaign cadence filetype

/-- C3 witness: the mapping evaluated at concrete cadences, and the K2 mask
evaluated on a concrete short-cadence row. -/
theorem c3_witness :
    cadenceDescriptionString "sc" "Target Pixel" = "Target Pixel Short" ∧
    cadenceDescriptionString "long" "Target Pixel" = "Target Pixel Long" ∧
    _mask_k2_products [⟨"K2", "Target Pixel Short Cadence (TPS) - C05", "a.fits", "u", 0⟩]
        none "sc" "Target Pixel"
      = [true] := by
  refine ⟨?_, ?_, ?_⟩
  · exact ((c3_cadence_mapping.1 "Target Pixel").2.1).trans rfl
  · exact (c3_cadence_mapping.2.1 "long" "Target Pixel" (by decide) (by decide)
      (by decide) (by decide)).trans rfl
  · exact (c3_cadence_mapping.2.2.2
      [⟨"K2", "Target Pixel Short Cadence (TPS) - C05", "a.fits", "u", 0⟩]
      none "sc" "Target Pixel").trans (by decide)

/-- C7 (confirmed): after the mask combination of lines 919-948 (with no
month filter and a recognised filetype), a row survives iff its family's
re-admission gate holds and its family predicate matches, or it belongs to
none of the three handled families (defensive passthrough). -/
theorem c7_family_combination (lookup : Nat → Nat → Option String)
    (products : List ProductRow) (campaign quarter sector : Option (List Nat))
    (cadence : String) (provenance_name : Option (List String))
    (filetype ds : String) (hds : spocDescriptionString filetype = some ds) :
    familyMask lookup products campaign quarter none sector cadence
        provenance_name filetype
      = Except.ok (products.map (fun r =>
          if isKeplerProv r then
            decide ("kepler" ∈ provLower provenance_name ∧
                campaign = none ∧ sector = none)
              && keplerRowPred quarter cadence filetype r
          else if isK2Prov r then
            decide ("k2" ∈ provLower provenance_name ∧
                quarter = none ∧ sector = none)
              && k2RowPred cadence filetype r
          else if isSpocProv r then
            decide ("spoc" ∈ provLower provenance_name ∧
                quarter = none ∧ campaign = none)
              && spocRowPred ds r
          else true)) := by
  rw [familyMask_eq lookup products campaign quarter sector cadence
      provenance_name filetype ds (fun _ => hds)]
  exact congrArg Except.ok (List.map_congr_left fun r _ => familyRowPred_chain _ _ _ _ _ _ _ r)

/-- C7 witness: a row of an unhandled provenance ("EVEREST") passes through
while a requested K2 row is filtered by its own predicate. -/
theorem c7_witness :
    familyMask (fun _ _ => none)
        [⟨"EVEREST", "some community product", "e.fits", "u", 0⟩,
         ⟨"K2", "Target Pixel Long Cadence (TPL) - C05", "k.fits", "u", 0⟩]
        none none none none "long" (some ["K2"]) "Target Pixel"
      = Except.ok [true, true] := by
  rw [c7_family_combination (fun _ _ => none) _ none none none "long" (some ["K2"])
      "Target Pixel" "Target pixel files" rfl]
  rfl

/-- C8 (confirmed): on an empty result table both `download` and
`download_all` emit the empty-result warning and return a null value; they
never produce an error, whatever the downloader does. -/
theorem c8_empty_download {α : Type} (fetchOne : ProductRow → Except String α) :
    download ([] : List ProductRow) fetchOne
      = (Except.ok none, [emptyDownloadWarning]) ∧
    download_all ([] : List ProductRow) fetchOne
      = (Except.ok none, [emptyDownloadWarning]) :=
  ⟨rfl, rfl⟩

/-- C8 witness: the empty-table behaviour at a concrete downloader. -/
theorem c8_empty_download_witness :
    download ([] : List ProductRow) (fun _ => Except.ok (0 : Nat))
      = (Except.ok none, [emptyDownloadWarning]) ∧
    download_all ([] : List ProductRow) (fun _ => Except.ok (0 : Nat))
      = (Except.ok none, [emptyDownloadWarning]) :=
  c8_empty_download (fun _ => Except.ok 0)

/-- C10 (confirmed): with a filetype outside the three recognised values,
`_mask_spoc_products` on a table containing at least one SPOC row reaches
the read of the never-assigned `description_string` (an unbound-variable
error); with a recognised filetype it always returns a mask. -/
theorem c10_spoc_unrecognised_filetype (products : List ProductRow)
    (sector : Option (List Nat)) (filetype : String) :
    ((strLower filetype ∉ (["lightcurve", "target pixel", "ffi"] : List String)) →
      (∃ r ∈ products, isSpocProv r = true) →
      _mask_spoc_products products sector filetype = Except.error spocUnboundMsg) ∧
    (strLower filetype ∈ (["lightcurve", "target pixel", "ffi"] : List String) →
      (_mask_spoc_products products sector filetype).toOption.isSome = true) := by
  constructor
  · intro hbad hex
    obtain ⟨r, hr, hrs⟩ := hex
    have hcount : ¬ (products.map isSpocProv).count true = 0 := by
      intro h0
      have := all_false_of_count_true_zero h0 r hr
      rw [this] at hrs
      exact absurd hrs (by simp)
    have hnone : spocDescriptionString filetype = none := by
      simp only [List.mem_cons, List.not_mem_nil, or_false, not_or] at hbad
      unfold spocDescriptionString
      rw [if_neg hbad.1, if_neg hbad.2.1, if_neg hbad.2.2]
    unfold _mask_spoc_products
    rw [if_neg hcount, hnone]
  · intro hgood
    have hex : ∃ ds, spocDescriptionString filetype = some ds := by
      simp only [List.mem_cons, List.not_mem_nil, or_false] at hgood
      unfold spocDescriptionString
      rcases hgood with h | h | h
      · rw [if_pos h]; exact ⟨_, rfl⟩
      · rw [if_neg (by rw [h]; decide), if_pos h]; exact ⟨_, rfl⟩
      · rw [if_neg (by rw [h]; decide), if_neg (by rw [h]; decide), if_pos h]
        exact ⟨_, rfl⟩
    obtain ⟨ds, hds⟩ := hex
    unfold _mask_spoc_products
    by_cases h0 : (products.map isSpocProv).count true = 0
    · rw [if_pos h0]; rfl
    · rw [if_neg h0, hds]; rfl

/-- C10 witness: a one-row SPOC table errors on an unrecognised filetype and
succeeds on "Lightcurve". -/
theorem c10_witness :
    _mask_spoc_products [⟨"SPOC", "Light curves", "a.fits", "u", 0⟩] none "bogus"
      = Except.error spocUnboundMsg ∧
    (_mask_spoc_products [⟨"SPOC", "Light curves", "a.fits", "u", 0⟩] none
        "Lightcurve").toOption.isSome = true := by
  constructor
  · exact (c10_spoc_unrecognised_filetype
      [⟨"SPOC", "Light curves", "a.fits", "u", 0⟩] none "bogus").1 (by decide)
      ⟨⟨"SPOC", "Light curves", "a.fits", "u", 0⟩, by simp, by decide⟩
  · exact (c10_spoc_unrecognised_filetype
      [⟨"SPOC", "Light curves", "a.fits", "u", 0⟩] none "Lightcurve").2 (by decide)

/-- C4 counterexample: the claim says rows whose filename does not end in
".fits" or ".fits.gz" are always excluded, but the source only tests the
dotless suffixes "fits"/"fits.gz" (lines 944-946), so a matching Kepler row
named "abcfits" — which ends in neither ".fits" nor ".fits.gz" — survives
the whole filter. -/
theorem c4_counterexample :
    strEndsWith (strLower "abcfits") ".fits" = false ∧
    strEndsWith (strLower "abcfits") ".fits.gz" = false ∧
    _filter_products (fun _ _ => none)
        [⟨"Kepler", "Target Pixel Long Cadence (TPL) - Q5", "abcfits", "u", 0⟩]
        none none none none "long" none ["Kepler", "K2", "TESS"]
        (some ["Kepler", "K2", "SPOC"]) "Target Pixel"
      = Except.ok
          [⟨"Kepler", "Target Pixel Long Cadence (TPL) - Q5", "abcfits", "u", 0⟩] :=
  ⟨rfl, rfl, rfl⟩

/-- C4 (amended): every row of the filtered output has a lowercased filename
ending in "fits" or "fits.gz" — the source's test omits the leading dot, so
exclusion is guaranteed only for filenames failing the dotless test,
regardless of all other filter matches. -/
theorem c4_fits_filter (lookup : Nat → Nat → Option String)
    (products : List ProductRow) (campaign quarter month sector : Option (List Nat))
    (cadence : String) (limit : Option Nat) (project : List String)
    (provenance_name : Option (List String)) (filetype : String)
    (out : List ProductRow)
    (hout : _filter_products lookup products campaign quarter month sector cadence
      limit project provenance_name filetype = Except.ok out) :
    ∀ r ∈ out, fitsOk r = true := by
  unfold _filter_products at hout
  cases hfm : familyMask lookup products campaign quarter month sector cadence
      provenance_name filetype with
  | error e => rw [hfm] at hout; exact absurd hout (by simp)
  | ok mask =>
    rw [hfm] at hout
    dsimp only at hout
    intro r hr
    have hr' : r ∈ applyMask products (List.zipWith and mask (products.map fitsOk)) := by
      cases limit with
      | none =>
        have heq : List.insertionSort rowLE
            (applyMask products (List.zipWith and mask (products.map fitsOk))) = out :=
          Except.ok.inj hout
        rw [← heq] at hr
        exact (List.mem_insertionSort rowLE).mp hr
      | some n =>
        have heq : (List.insertionSort rowLE
            (applyMask products (List.zipWith and mask (products.map fitsOk)))).take n
              = out :=
          Except.ok.inj hout
        rw [← heq] at hr
        exact (List.mem_insertionSort rowLE).mp (List.take_subset n _ hr)
    exact pred_of_mem_applyMask fitsOk products mask r hr'

/-- C4 witness: a concrete run whose output rows all pass the dotless test. -/
theorem c4_fits_filter_witness :
    fitsOk ⟨"Kepler", "Target Pixel Long Cadence (TPL) - Q5", "kplr-q5_tpf.fits", "u", 0⟩
      = true :=
  c4_fits_filter (fun _ _ => none)
    [⟨"Kepler", "Target Pixel Long Cadence (TPL) - Q5", "kplr-q5_tpf.fits", "u", 0⟩]
    none none none none "long" none ["Kepler", "K2", "TESS"]
    (some ["Kepler", "K2", "SPOC"]) "Target Pixel"
    [⟨"Kepler", "Target Pixel Long Cadence (TPL) - Q5", "kplr-q5_tpf.fits", "u", 0⟩]
    rfl
    ⟨"Kepler", "Target Pixel Long Cadence (TPL) - Q5", "kplr-q5_tpf.fits", "u", 0⟩
    (List.mem_cons_self _ _)

/-- C5 (confirmed): the filtered output with no limit is sorted by ascending
distance with ties broken by lexicographic filename order, and a run with
`limit = n` returns exactly the first `n` rows of that same sorted order
(all `n` of them whenever at least `n` rows match). -/
theorem c5_sort_and_limit (lookup : Nat → Nat → Option String)
    (products : List ProductRow) (campaign quarter month sector : Option (List Nat))
    (cadence : String) (project : List String)
    (provenance_name : Option (List String)) (filetype : String)
    (out : List ProductRow)
    (hout : _filter_products lookup products campaign quarter month sector cadence
      none project provenance_name filetype = Except.ok out) :
    List.Sorted rowLE out ∧
    (∀ n : Nat, _filter_products lookup products campaign quarter month sector cadence
      (some n) project provenance_name filetype = Except.ok (out.take n)) ∧
    (∀ n : Nat, n ≤ out.length → (out.take n).length = n) := by
  unfold _filter_products at hout ⊢
  cases hfm : familyMask lookup products campaign quarter month sector cadence
      provenance_name filetype with
  | error e => rw [hfm] at hout; exact absurd hout (by simp)
  | ok mask =>
    rw [hfm] at hout
    dsimp only at hout ⊢
    have heq : List.insertionSort rowLE
        (applyMask products (List.zipWith and mask (products.map fitsOk))) = out :=
      Except.ok.inj hout
    refine ⟨?_, ?_, ?_⟩
    · rw [← heq]
      exact List.sorted_insertionSort rowLE _
    · intro n
      rw [heq]
    · intro n hn
      rw [List.length_take]
      omega

/-- C5 witness: two rows arrive in reversed distance order; the output is
sorted and `limit = 1` returns exactly its first row. -/
theorem c5_sort_and_limit_witness :
    _filter_products (fun _ _ => none)
        [⟨"Kepler", "Lightcurve Long Cadence (CLC) - Q1", "b.fits", "u", 1⟩,
         ⟨"Kepler", "Lightcurve Long Cadence (CLC) - Q2", "a.fits", "u", 0⟩]
        none none none none "long" (some 1) ["Kepler", "K2", "TESS"]
        (some ["Kepler", "K2", "SPOC"]) "Lightcurve"
      = Except.ok [⟨"Kepler", "Lightcurve Long Cadence (CLC) - Q2", "a.fits", "u", 0⟩] ∧
    List.Sorted rowLE
      [⟨"Kepler", "Lightcurve Long Cadence (CLC) - Q2", "a.fits", "u", 0⟩,
       ⟨"Kepler", "Lightcurve Long Cadence (CLC) - Q1", "b.fits", "u", 1⟩] := by
  obtain ⟨hs, hl, -⟩ := c5_sort_and_limit (fun _ _ => none)
    [⟨"Kepler", "Lightcurve Long Cadence (CLC) - Q1", "b.fits", "u", 1⟩,
     ⟨"Kepler", "Lightcurve Long Cadence (CLC) - Q2", "a.fits", "u", 0⟩]
    none none none none "long" ["Kepler", "K2", "TESS"]
    (some ["Kepler", "K2", "SPOC"]) "Lightcurve"
    [⟨"Kepler", "Lightcurve Long Cadence (CLC) - Q2", "a.fits", "u", 0⟩,
     ⟨"Kepler", "Lightcurve Long Cadence (CLC) - Q1", "b.fits", "u", 1⟩]
    rfl
  exact ⟨(hl 1).trans rfl, hs⟩

/-- C9 (confirmed): inside the Kepler month filter, a short-cadence
candidate row whose parsed quarter misses the month lookup table for every
requested month has its mask bit cleared, and — as long as the remaining
candidate rows parse — the whole loop returns a mask rather than raising. -/
theorem c9_month_lookup_miss (lookup : Nat → Nat → Option String)
    (months : List Nat) (l : List (ProductRow × Bool)) (i : Nat)
    (r : ProductRow) (q : Nat) (date : String)
    (hall : ∀ p ∈ l, (p.2 && strContains p.1.description "Short") = true →
      (parseQuarterFromDesc p.1.description).isSome = true ∧
      (parseDateFromURI p.1.dataURI).isSome = true)
    (hi : l[i]? = some (r, true))
    (hshort : strContains r.description "Short" = true)
    (hq : parseQuarterFromDesc r.description = some q)
    (hdate : parseDateFromURI r.dataURI = some date)
    (hmiss : ∀ m ∈ months, lookup q m = none) :
    (keplerMonthFilter lookup months l).toOption.isSome = true ∧
    ((keplerMonthFilter lookup months l).toOption.getD [])[i]? = some false := by
  obtain ⟨out, hout, hlen, hpt⟩ := keplerMonthFilter_ok lookup months l
    (fun p hp => monthStep_isOk lookup months p.1 p.2 (hall p hp))
  have hstep : monthStep lookup months r true = Except.ok false :=
    monthStep_lookup_miss lookup months r q date hshort hq hdate hmiss
  have hidx : out[i]? = some false := hpt i (r, true) false hi hstep
  rw [hout]
  exact ⟨rfl, hidx⟩

/-- C9 witness: one short-cadence candidate row, requested month 1, and an
empty lookup table: the loop returns a mask with the bit cleared. -/
theorem c9_month_lookup_miss_witness :
    (keplerMonthFilter (fun _ _ => none) [1]
      [(⟨"Kepler", "Target Pixel Short Cadence (TPS) - Q4",
         "kplr-q4_tpf.fits", "a/kplr0-2009_llc.fits", 0⟩, true)]).toOption.isSome = true ∧
    ((keplerMonthFilter (fun _ _ => none) [1]
      [(⟨"Kepler", "Target Pixel Short Cadence (TPS) - Q4",
         "kplr-q4_tpf.fits", "a/kplr0-2009_llc.fits", 0⟩, true)]).toOption.getD [])[0]?
      = some false :=
  c9_month_lookup_miss (fun _ _ => none) [1]
    [(⟨"Kepler", "Target Pixel Short Cadence (TPS) - Q4",
       "kplr-q4_tpf.fits", "a/kplr0-2009_llc.fits", 0⟩, true)]
    0
    ⟨"Kepler", "Target Pixel Short Cadence (TPS) - Q4",
     "kplr-q4_tpf.fits", "a/kplr0-2009_llc.fits", 0⟩
    4 "2009"
    (by decide) rfl rfl rfl rfl
    (fun m _ => rfl)

theorem idMatch_self_nospace {pre : String} {d : List Char} (hne : d ≠ [])
    (hdig : d.all isDig = true) : idMatch pre (pre.toList ++ d) = some d := by
  unfold idMatch
  rw [dropPre_eq_some.mpr rfl]
  exact optSpaceDigits_eq_some.mpr ⟨hne, hdig, Or.inl rfl⟩

theorem idMatch_self_space {pre : String} {d : List Char} (hne : d ≠ [])
    (hdig : d.all isDig = true) :
    idMatch pre (pre.toList ++ ' ' :: d) = some d := by
  unfold idMatch
  rw [dropPre_eq_some.mpr rfl]
  exact optSpaceDigits_eq_some.mpr ⟨hne, hdig, Or.inr rfl⟩

/-- C6 (confirmed): `exactTargetName` produces `some out` exactly when the
lowercased target is one of the six mission-prefixed digit patterns
(optional single-space separator), and `out` is then the mission's
identifier with the digit string zero-padded to width 9 via `zfill9`:
`kplr`-prefixed for KPLR/KIC inputs, `ktwo`-prefixed for KTWO/EPIC inputs,
and the bare padded digits for TESS/TIC inputs; no other input produces an
exact identifier. -/
theorem c6_resolver_exact_identifiers (s out : String) :
    exactTargetName s = some out ↔
      ∃ d : List Char, d ≠ [] ∧ d.all isDig = true ∧
        ((((strLower s).toList = "kplr".toList ++ d ∨
           (strLower s).toList = "kplr".toList ++ ' ' :: d) ∨
          ((strLower s).toList = "kic".toList ++ d ∨
           (strLower s).toList = "kic".toList ++ ' ' :: d)) ∧
            out = "kplr" ++ String.mk (zfill9 d) ∨
         (((strLower s).toList = "ktwo".toList ++ d ∨
           (strLower s).toList = "ktwo".toList ++ ' ' :: d) ∨
          ((strLower s).toList = "epic".toList ++ d ∨
           (strLower s).toList = "epic".toList ++ ' ' :: d)) ∧
            out = "ktwo" ++ String.mk (zfill9 d) ∨
         (((strLower s).toList = "tess".toList ++ d ∨
           (strLower s).toList = "tess".toList ++ ' ' :: d) ∨
          ((strLower s).toList = "tic".toList ++ d ∨
           (strLower s).toList = "tic".toList ++ ' ' :: d)) ∧
            out = String.mk (zfill9 d)) := by
  constructor
  · intro h
    unfold exactTargetName at h
    dsimp only at h
    cases htess : pick2 (idMatch "tess" ((strLower s).toList))
        (idMatch "tic" ((strLower s).toList)) with
    | some d =>
      rw [htess] at h
      have hout : out = String.mk (zfill9 d) := (Option.some.inj h).symm
      rcases pick2_eq_some.mp htess with hm | ⟨-, hm⟩
      · obtain ⟨hne, hdig, hforms⟩ := idMatch_eq_some.mp hm
        exact ⟨d, hne, hdig, Or.inr (Or.inr ⟨Or.inl hforms, hout⟩)⟩
      · obtain ⟨hne, hdig, hforms⟩ := idMatch_eq_some.mp hm
        exact ⟨d, hne, hdig, Or.inr (Or.inr ⟨Or.inr hforms, hout⟩)⟩
    | none =>
      rw [htess] at h
      cases hktwo : pick2 (idMatch "ktwo" ((strLower s).toList))
          (idMatch "epic" ((strLower s).toList)) with
      | some d =>
        rw [hktwo] at h
        have hout : out = "ktwo" ++ String.mk (zfill9 d) := (Option.some.inj h).symm
        rcases pick2_eq_some.mp hktwo with hm | ⟨-, hm⟩
        · obtain ⟨hne, hdig, hforms⟩ := idMatch_eq_some.mp hm
          exact ⟨d, hne, hdig, Or.inr (Or.inl ⟨Or.inl hforms, hout⟩)⟩
        · obtain ⟨hne, hdig, hforms⟩ := idMatch_eq_some.mp hm
          exact ⟨d, hne, hdig, Or.inr (Or.inl ⟨Or.inr hforms, hout⟩)⟩
      | none =>
        rw [hktwo] at h
        cases hkplr : pick2 (idMatch "kplr" ((strLower s).toList))
            (idMatch "kic" ((strLower s).toList)) with
        | some d =>
          rw [hkplr] at h
          have hout : out = "kplr" ++ String.mk (zfill9 d) := (Option.some.inj h).symm
          rcases pick2_eq_some.mp hkplr with hm | ⟨-, hm⟩
          · obtain ⟨hne, hdig, hforms⟩ := idMatch_eq_some.mp hm
            exact ⟨d, hne, hdig, Or.inl ⟨Or.inl hforms, hout⟩⟩
          · obtain ⟨hne, hdig, hforms⟩ := idMatch_eq_some.mp hm
            exact ⟨d, hne, hdig, Or.inl ⟨Or.inr hforms, hout⟩⟩
        | none =>
          rw [hkplr] at h
          exact absurd h (by simp)
  · rintro ⟨d, hne, hdig, hfam⟩
    rcases hfam with ⟨hpre | hpre, hout⟩ | ⟨hpre | hpre, hout⟩ | ⟨hpre | hpre, hout⟩ <;>
      subst hout <;> unfold exactTargetName <;> dsimp only
    · rcases hpre with hform | hform <;> rw [hform]
      · rw [show idMatch "tess" ("kplr".toList ++ d) = none from rfl,
          show idMatch "tic" ("kplr".toList ++ d) = none from rfl,
          show idMatch "ktwo" ("kplr".toList ++ d) = none from rfl,
          show idMatch "epic" ("kplr".toList ++ d) = none from rfl,
          idMatch_self_nospace hne hdig]
        rfl
      · rw [show idMatch "tess" ("kplr".toList ++ ' ' :: d) = none from rfl,
          show idMatch "tic" ("kplr".toList ++ ' ' :: d) = none from rfl,
          show idMatch "ktwo" ("kplr".toList ++ ' ' :: d) = none from rfl,
          show idMatch "epic" ("kplr".toList ++ ' ' :: d) = none from rfl,
          idMatch_self_space hne hdig]
        rfl
    · rcases hpre with hform | hform <;> rw [hform]
      · rw [show idMatch "tess" ("kic".toList ++ d) = none from rfl,
          show idMatch "tic" ("kic".toList ++ d) = none from rfl,
          show idMatch "ktwo" ("kic".toList ++ d) = none from rfl,
          show idMatch "epic" ("kic".toList ++ d) = none from rfl,
          show idMatch "kplr" ("kic".toList ++ d) = none from rfl,
          idMatch_self_nospace hne hdig]
        rfl
      · rw [show idMatch "tess" ("kic".toList ++ ' ' :: d) = none from rfl,
          show idMatch "tic" ("kic".toList ++ ' ' :: d) = none from rfl,
          show idMatch "ktwo" ("kic".toList ++ ' ' :: d) = none from rfl,
          show idMatch "epic" ("kic".toList ++ ' ' :: d) = none from rfl,
          show idMatch "kplr" ("kic".toList ++ ' ' :: d) = none from rfl,
          idMatch_self_space hne hdig]
        rfl
    · rcases hpre with hform | hform <;> rw [hform]
      · rw [show idMatch "tess" ("ktwo".toList ++ d) = none from rfl,
          show idMatch "tic" ("ktwo".toList ++ d) = none from rfl,
          idMatch_self_nospace hne hdig]
        rfl
      · rw [show idMatch "tess" ("ktwo".toList ++ ' ' :: d) = none from rfl,
          show idMatch "tic" ("ktwo".toList ++ ' ' :: d) = none from rfl,
          idMatch_self_space hne hdig]
        rfl
    · rcases hpre with hform | hform <;> rw [hform]
      · rw [show idMatch "tess" ("epic".toList ++ d) = none from rfl,
          show idMatch "tic" ("epic".toList ++ d) = none from rfl,
          show idMatch "ktwo" ("epic".toList ++ d) = none from rfl,
          idMatch_self_nospace hne hdig]
        rfl
      · rw [show idMatch "tess" ("epic".toList ++ ' ' :: d) = none from rfl,
          show idMatch "tic" ("epic".toList ++ ' ' :: d) = none from rfl,
          show idMatch "ktwo" ("epic".toList ++ ' ' :: d) = none from rfl,
          idMatch_self_space hne hdig]
        rfl
    · rcases hpre with hform | hform <;> rw [hform]
      · rw [idMatch_self_nospace hne hdig]
        rfl
      · rw [idMatch_self_space hne hdig]
        rfl
    · rcases hpre with hform | hform <;> rw [hform]
      · rw [show idMatch "tess" ("tic".toList ++ d) = none from rfl,
          idMatch_self_nospace hne hdig]
        rfl
      · rw [show idMatch "tess" ("tic".toList ++ ' ' :: d) = none from rfl,
          idMatch_self_space hne hdig]
        rfl

/-- C6 witness: "KIC 11904151", "EPIC 211611158" and "TIC 377780790" resolve
to their exact zero-padded identifiers. -/
theorem c6_resolver_witness :
    exactTargetName "KIC 11904151" = some "kplr011904151" ∧
    exactTargetName "EPIC 211611158" = some "ktwo211611158" ∧
    exactTargetName "TIC 377780790" = some "377780790" := by
  refine ⟨?_, ?_, ?_⟩
  · exact (c6_resolver_exact_identifiers "KIC 11904151" "kplr011904151").mpr
      ⟨"11904151".toList, by decide, by decide,
       Or.inl ⟨Or.inr (Or.inr (by decide)), by decide⟩⟩
  · exact (c6_resolver_exact_identifiers "EPIC 211611158" "ktwo211611158").mpr
      ⟨"211611158".toList, by decide, by decide,
       Or.inr (Or.inl ⟨Or.inr (Or.inr (by decide)), by decide⟩)⟩
  · exact (c6_resolver_exact_identifiers "TIC 377780790" "377780790").mpr
      ⟨"377780790".toList, by decide, by decide,
       Or.inr (Or.inr ⟨Or.inr (Or.inr (by decide)), by decide⟩)⟩

end Lightkurve
